import Mathlib

/-!
Shallow embedding of the `libcala/camera` crate (`src/lib.rs`): the V4L2
control-call code builders, the `Camera` capture device (initialization,
await-next-frame poll, drop), and the `Rig` hotplug monitor (directory scan
and inotify removal handling).  Syscalls are abstracted as environment
parameters and every operation additionally returns the list of externally
visible actions it performed, in order.
-/

/-! ### Control-call code composition (src/lib.rs lines 248-256)

`iow_v`, `ior_v`, `iowr_v` build a 32-bit ioctl code from a direction byte
(`0x80` write, `0x40` read, `0xc0` read-write, occupying the two top bits of
the high byte), a 13-bit payload size, the fixed subsystem tag `b'V' = 0x56`,
and a command-number byte.  The Rust computes in `c_ulong`; all values fit in
32 bits, so `Nat` models it exactly. -/

def iow_v (size : Nat) (num : Nat) : Nat :=
  (0x80 <<< 24) ||| ((size &&& 0x1fff) <<< 16) ||| (0x56 <<< 8) ||| num

def ior_v (size : Nat) (num : Nat) : Nat :=
  (0x40 <<< 24) ||| ((size &&& 0x1fff) <<< 16) ||| (0x56 <<< 8) ||| num

def iowr_v (size : Nat) (num : Nat) : Nat :=
  (0xc0 <<< 24) ||| ((size &&& 0x1fff) <<< 16) ||| (0x56 <<< 8) ||| num

/-- Decomposition: the direction bits of the high byte (spec section 6:
"direction: 2 bits high byte region", i.e. bits 30-31, kept in their
high-byte position so that the result is the original `0x40`/`0x80`/`0xc0`
constant). -/
def code_dir (c : Nat) : Nat := (c >>> 24) &&& 0xc0

/-- Decomposition: the 13-bit payload-size field at bits 16-28. -/
def code_size (c : Nat) : Nat := (c >>> 16) &&& 0x1fff

/-- Decomposition: the subsystem-tag byte at bits 8-15. -/
def code_tag (c : Nat) : Nat := (c >>> 8) &&& 0xff

/-- Decomposition: the command-number byte at bits 0-7. -/
def code_num (c : Nat) : Nat := c &&& 0xff

theorem and_c0_of_decompose : ∀ a < 4, ∀ u < 64, (a * 64 + u) &&& 0xc0 = a * 64 := by
  decide

/-- Disjoint-field composition collapses to addition. -/
theorem lor4_eq_add (a s n : Nat) (hs : s < 2 ^ 13) (hn : n < 2 ^ 8) :
    (2 ^ 30 * a) ||| (s <<< 16) ||| (0x56 <<< 8) ||| n
      = 2 ^ 30 * a + 2 ^ 16 * s + 0x5600 + n := by
  have e1 : (s <<< 16 : Nat) = 2 ^ 16 * s := by rw [Nat.shiftLeft_eq]; ring
  have e2 : ((0x56 : Nat) <<< 8) = 0x5600 := by decide
  rw [e1, e2]
  have hb1 : 2 ^ 16 * s < 2 ^ 30 := by
    have h13 : s < 2 ^ 13 := hs
    norm_num at h13 ⊢
    omega
  rw [← Nat.mul_add_lt_is_or hb1 a]
  have e3 : 2 ^ 30 * a + 2 ^ 16 * s = 2 ^ 16 * (2 ^ 14 * a + s) := by ring
  have hb2 : (0x5600 : Nat) < 2 ^ 16 := by norm_num
  rw [e3, ← Nat.mul_add_lt_is_or hb2 (2 ^ 14 * a + s)]
  have e4 : 2 ^ 16 * (2 ^ 14 * a + s) + 0x5600 = 2 ^ 8 * (2 ^ 8 * (2 ^ 14 * a + s) + 0x56) := by ring
  rw [e4, ← Nat.mul_add_lt_is_or hn (2 ^ 8 * (2 ^ 14 * a + s) + 0x56)]

theorem fields_of_sum (a s n : Nat) (ha : a < 4) (hs : s < 2 ^ 13) (hn : n < 2 ^ 8) :
    code_dir (2 ^ 30 * a + 2 ^ 16 * s + 0x5600 + n) = a * 64
      ∧ code_size (2 ^ 30 * a + 2 ^ 16 * s + 0x5600 + n) = s
      ∧ code_tag (2 ^ 30 * a + 2 ^ 16 * s + 0x5600 + n) = 0x56
      ∧ code_num (2 ^ 30 * a + 2 ^ 16 * s + 0x5600 + n) = n := by
  set c : Nat := 2 ^ 30 * a + 2 ^ 16 * s + 0x5600 + n with hc
  refine ⟨?_, ?_, ?_, ?_⟩
  · have ht : c >>> 24 = a * 64 + s / 256 := by
      rw [Nat.shiftRight_eq_div_pow]
      omega
    rw [code_dir, ht, and_c0_of_decompose a ha (s / 256) (by omega)]
  · have h13 : (0x1fff : Nat) = 2 ^ 13 - 1 := by norm_num
    rw [code_size, h13, Nat.and_pow_two_sub_one_eq_mod, Nat.shiftRight_eq_div_pow]
    omega
  · have h8 : (0xff : Nat) = 2 ^ 8 - 1 := by norm_num
    rw [code_tag, h8, Nat.and_pow_two_sub_one_eq_mod, Nat.shiftRight_eq_div_pow]
    omega
  · have h8 : (0xff : Nat) = 2 ^ 8 - 1 := by norm_num
    rw [code_num, h8, Nat.and_pow_two_sub_one_eq_mod]
    omega

/-- **C2** — *Code round-trip*: for every payload size in `0..8191` and every
command number, composing a control-call code with any of the three direction
builders (`iow_v` write `0x80`, `ior_v` read `0x40`, `iowr_v` read-write
`0xc0`) and then extracting the four bit fields reproduces the direction
bits, the size, the fixed `'V'` (`0x56`) tag and the command number exactly. -/
theorem code_round_trip (size num : Nat) (hs : size < 8192) (hn : num < 256) :
    (code_dir (iow_v size num) = 0x80 ∧ code_size (iow_v size num) = size
      ∧ code_tag (iow_v size num) = 0x56 ∧ code_num (iow_v size num) = num)
    ∧ (code_dir (ior_v size num) = 0x40 ∧ code_size (ior_v size num) = size
      ∧ code_tag (ior_v size num) = 0x56 ∧ code_num (ior_v size num) = num)
    ∧ (code_dir (iowr_v size num) = 0xc0 ∧ code_size (iowr_v size num) = size
      ∧ code_tag (iowr_v size num) = 0x56 ∧ code_num (iowr_v size num) = num) := by
  have hs' : size < 2 ^ 13 := by norm_num at hs ⊢; omega
  have hn' : num < 2 ^ 8 := by norm_num at hn ⊢; omega
  have hmask : size &&& 0x1fff = size := by
    have h13 : (0x1fff : Nat) = 2 ^ 13 - 1 := by norm_num
    rw [h13, Nat.and_pow_two_sub_one_eq_mod, Nat.mod_eq_of_lt hs']
  refine ⟨?_, ?_, ?_⟩
  · have hw : iow_v size num = 2 ^ 30 * 2 + 2 ^ 16 * size + 0x5600 + num := by
      rw [iow_v, hmask, show ((0x80 : Nat) <<< 24) = 2 ^ 30 * 2 by decide]
      exact lor4_eq_add 2 size num hs' hn'
    have h := fields_of_sum 2 size num (by norm_num) hs' hn'
    rw [hw]
    exact ⟨h.1, h.2.1, h.2.2.1, h.2.2.2⟩
  · have hw : ior_v size num = 2 ^ 30 * 1 + 2 ^ 16 * size + 0x5600 + num := by
      rw [ior_v, hmask, show ((0x40 : Nat) <<< 24) = 2 ^ 30 * 1 by decide]
      exact lor4_eq_add 1 size num hs' hn'
    have h := fields_of_sum 1 size num (by norm_num) hs' hn'
    rw [hw]
    exact ⟨h.1, h.2.1, h.2.2.1, h.2.2.2⟩
  · have hw : iowr_v size num = 2 ^ 30 * 3 + 2 ^ 16 * size + 0x5600 + num := by
      rw [iowr_v, hmask, show ((0xc0 : Nat) <<< 24) = 2 ^ 30 * 3 by decide]
      exact lor4_eq_add 3 size num hs' hn'
    have h := fields_of_sum 3 size num (by norm_num) hs' hn'
    rw [hw]
    exact ⟨h.1, h.2.1, h.2.2.1, h.2.2.2⟩

/-- Witness for `code_round_trip` at size 100, command number 18. -/
theorem code_round_trip_witness :
    code_size (iow_v 100 18) = 100 ∧ code_num (iowr_v 100 18) = 18 :=
  ⟨(code_round_trip 100 18 (by decide) (by decide)).1.2.1,
   (code_round_trip 100 18 (by decide) (by decide)).2.2.2.2.2⟩

/-! ### Capture device model (src/lib.rs lines 434-605)

`Camera::new` re-opens `/dev/video0` (ignoring its `fd` argument), runs
QUERYCAP, S_FMT, REQBUFS, QUERYBUF, QBUF, STREAMON on the fd it opened, and
builds the struct with `buffer: null_mut()` — the `mmap` call of the design is
present only as commented-out code.  `poll` does DQBUF; on `EAGAIN` (11) it
registers the waker and returns `Pending`; on another error it closes the fd
and panics; on success it re-enqueues the same buffer with QBUF and returns
`Ready`.  `drop` does STREAMOFF, `munmap(self.buffer, self.size)`, `close`.
Syscall outcomes are supplied by the caller; each operation returns its
ordered list of externally visible actions. -/

/-- The fields of `struct v4l2_buffer` the code reads or writes. -/
structure V4l2Buf where
  index : Nat
  length : Nat
  offset : Nat
  deriving DecidableEq, Repr

/-- The `Camera` struct.  Pointers are modelled as `Nat` with `0` for
`null_mut()`; `fdOpen`/`streaming` track resource state for the lifecycle
claims. -/
structure Camera where
  fd : Int
  watcherInput : Bool
  fdOpen : Bool
  streaming : Bool
  buffer : Nat
  buf : V4l2Buf
  dataPtr : Nat
  size : Nat
  deriving DecidableEq, Repr

/-- Externally visible actions of the capture device, in program order. -/
inductive CamAction where
  | openVideo0 (fd : Int)
  | openVideo0Failed
  | querycap (fd : Int)
  | sfmt (fd : Int)
  | reqbufs (fd : Int)
  | querybuf (fd : Int)
  | mmapCall (addr len : Nat)
  | qbuf (fd : Int) (idx : Nat)
  | qbufErr (fd : Int) (idx : Nat)
  | streamon (fd : Int)
  | dqbufOk (fd : Int) (idx : Nat)
  | dqbufErr (fd : Int) (errno : Int)
  | registerWaker (fd : Int) (input : Bool)
  | streamoff (fd : Int)
  | streamoffErr (fd : Int)
  | munmapCall (addr len : Nat)
  | munmapErr (addr len : Nat)
  | closeFd (fd : Int)
  | closeErr (fd : Int)
  deriving DecidableEq, Repr

/-- Is this action an `mmap` call? (The source never performs one: the call
is commented out at src/lib.rs lines 544-545.) -/
def CamAction.isMmap : CamAction → Bool
  | .mmapCall _ _ => true
  | _ => false

/-- Is this action a successful buffer enqueue (VIDIOC_QBUF)? -/
def CamAction.isQbuf : CamAction → Bool
  | .qbuf _ _ => true
  | _ => false

/-- Is this action a successful buffer dequeue (VIDIOC_DQBUF)? -/
def CamAction.isDqbuf : CamAction → Bool
  | .dqbufOk _ _ => true
  | _ => false

/-- Is this action a `close(fd)` call? -/
def CamAction.isClose : CamAction → Bool
  | .closeFd _ => true
  | .closeErr _ => true
  | _ => false

/-- Is this action a waker registration? -/
def CamAction.isRegister : CamAction → Bool
  | .registerWaker _ _ => true
  | _ => false

/-- The fd a syscall of the initialization sequence was issued on, if any. -/
def CamAction.fdUsed : CamAction → Option Int
  | .openVideo0 fd => some fd
  | .querycap fd => some fd
  | .sfmt fd => some fd
  | .reqbufs fd => some fd
  | .querybuf fd => some fd
  | .qbuf fd _ => some fd
  | .qbufErr fd _ => some fd
  | .streamon fd => some fd
  | _ => none

/-- Outcomes of the syscalls `Camera::new` performs, one record per
invocation: the result of the internal `open("/dev/video0")` and of each
ioctl, plus the buffer length/offset the driver writes back on QUERYBUF. -/
structure CamEnv where
  openVideo0 : Option Int
  querycapOk : Bool
  sfmtOk : Bool
  reqbufsOk : Bool
  querybufOk : Bool
  bufLength : Nat
  bufOffset : Nat
  qbufOk : Bool
  streamonOk : Bool
  deriving DecidableEq, Repr

/-- Result of `Camera::new`: `fail` is `None` (the internal open failed),
`fatal` is a `panic!` on a rejected ioctl, `ok` carries the built struct. -/
inductive InitRes where
  | fail
  | fatal
  | ok (c : Camera)
  deriving DecidableEq, Repr

/-- `Camera::new` together with its action trace. -/
structure InitStep where
  res : InitRes
  trace : List CamAction
  deriving DecidableEq, Repr

/-- `Camera::new(fd, raster)` (src/lib.rs lines 452-565).  Note: the `fdArg`
parameter is ignored, exactly as in the source, which shadows it by opening
`"/dev/video0"`; and no `mmapCall` action is ever emitted because the mapping
call is commented out. -/
def cameraNew (env : CamEnv) (fdArg : Int) : InitStep :=
  match env.openVideo0 with
  | none => { res := .fail, trace := [.openVideo0Failed] }
  | some fd =>
    if fd = -1 then { res := .fail, trace := [.openVideo0 fd] }
    else if ¬env.querycapOk then
      { res := .fatal, trace := [.openVideo0 fd, .querycap fd] }
    else if ¬env.sfmtOk then
      { res := .fatal, trace := [.openVideo0 fd, .querycap fd, .sfmt fd] }
    else if ¬env.reqbufsOk then
      { res := .fatal, trace := [.openVideo0 fd, .querycap fd, .sfmt fd, .reqbufs fd] }
    else if ¬env.querybufOk then
      { res := .fatal,
        trace := [.openVideo0 fd, .querycap fd, .sfmt fd, .reqbufs fd, .querybuf fd] }
    else if ¬env.qbufOk then
      { res := .fatal,
        trace := [.openVideo0 fd, .querycap fd, .sfmt fd, .reqbufs fd, .querybuf fd,
                  .qbufErr fd 0] }
    else if ¬env.streamonOk then
      { res := .fatal,
        trace := [.openVideo0 fd, .querycap fd, .sfmt fd, .reqbufs fd, .querybuf fd,
                  .qbuf fd 0, .streamon fd] }
    else
      { res := .ok
          { fd := fd
            watcherInput := true
            fdOpen := true
            streaming := true
            buffer := 0
            buf := { index := 0, length := env.bufLength, offset := env.bufOffset }
            dataPtr := 0
            size := env.bufLength }
        trace := [.openVideo0 fd, .querycap fd, .sfmt fd, .reqbufs fd, .querybuf fd,
                  .qbuf fd 0, .streamon fd] }

/-- Outcome of the non-blocking VIDIOC_DQBUF: success returns the index the
driver wrote into the buffer struct; failure carries `errno`. -/
inductive DqOutcome where
  | ok (idx : Nat)
  | err (errno : Int)
  deriving DecidableEq, Repr

/-- Result of one `<Camera as Future>::poll` call. -/
inductive PollRes where
  | ready
  | pending
  | fatal
  deriving DecidableEq, Repr

/-- One poll step: result, camera state afterwards, action trace. -/
structure PollStep where
  res : PollRes
  cam : Camera
  trace : List CamAction
  deriving DecidableEq, Repr

/-- `<Camera as Future>::poll` (src/lib.rs lines 571-589): try DQBUF; on
`EAGAIN` register the waker (with the device's input watcher) and return
`Pending`; on another errno close the fd and panic; on success re-enqueue the
dequeued buffer with QBUF (panicking if that fails) and return `Ready`. -/
def cameraPoll (dq : DqOutcome) (qbufOk : Bool) (c : Camera) : PollStep :=
  match dq with
  | .err e =>
    if e = 11 then
      { res := .pending, cam := c,
        trace := [.dqbufErr c.fd e, .registerWaker c.fd c.watcherInput] }
    else
      { res := .fatal, cam := { c with fdOpen := false },
        trace := [.dqbufErr c.fd e, .closeFd c.fd] }
  | .ok idx =>
    let c' := { c with buf := { c.buf with index := idx } }
    if qbufOk then
      { res := .ready, cam := c', trace := [.dqbufOk c.fd idx, .qbuf c.fd idx] }
    else
      { res := .fatal, cam := c', trace := [.dqbufOk c.fd idx, .qbufErr c.fd idx] }

/-- The concatenated action trace of a sequence of polls; a fatal poll ends
the run (the process aborts). -/
def pollRun (c : Camera) : List (DqOutcome × Bool) → List CamAction
  | [] => []
  | (dq, q) :: rest =>
    let s := cameraPoll dq q c
    match s.res with
    | .fatal => s.trace
    | _ => s.trace ++ pollRun s.cam rest

/-- The camera state after a sequence of polls. -/
def pollRunState (c : Camera) : List (DqOutcome × Bool) → Camera
  | [] => c
  | (dq, q) :: rest =>
    let s := cameraPoll dq q c
    match s.res with
    | .fatal => s.cam
    | _ => pollRunState s.cam rest

/-- Result of `<Camera as Drop>::drop`: `ok` is false when a teardown call
failed (the source panics there). -/
structure DropStep where
  ok : Bool
  cam : Camera
  trace : List CamAction
  deriving DecidableEq, Repr

/-- `<Camera as Drop>::drop` (src/lib.rs lines 592-605): STREAMOFF, then
`munmap(self.buffer, self.size)`, then `close(fd)`; each failure panics. -/
def cameraDrop (streamoffOk munmapOk closeOk : Bool) (c : Camera) : DropStep :=
  if ¬streamoffOk then
    { ok := false, cam := c, trace := [.streamoffErr c.fd] }
  else if ¬munmapOk then
    { ok := false, cam := { c with streaming := false },
      trace := [.streamoff c.fd, .munmapErr c.buffer c.size] }
  else if ¬closeOk then
    { ok := false, cam := { c with streaming := false },
      trace := [.streamoff c.fd, .munmapCall c.buffer c.size, .closeErr c.fd] }
  else
    { ok := true, cam := { c with streaming := false, fdOpen := false },
      trace := [.streamoff c.fd, .munmapCall c.buffer c.size, .closeFd c.fd] }

/-- Number of successful enqueues in a trace. -/
def enqCount (l : List CamAction) : Nat := l.countP fun a => a.isQbuf

/-- Number of successful dequeues in a trace. -/
def deqCount (l : List CamAction) : Nat := l.countP fun a => a.isDqbuf

/-! ### Hotplug monitor model (src/lib.rs lines 310-432)

`<Rig as Future>::poll` first tries to read one inotify record.  With no
record available it scans `/dev/`: entries whose name starts with `"video"`
and is not yet in `connected` are opened; `PermissionDenied` clears the
`all_open` flag and skips, any other open error skips; on success the name is
inserted into `connected` and `Camera::new` is run — `Some` camera is yielded
`Ready`, `None` falls through to the next entry, and an internal `panic!`
aborts the monitor.  After the loop the waker is registered and `Pending` is
returned.  If a record was read and its mask has bit `0x200`, a name ending
in `"-event-joystick"` is removed from `connected`. -/

/-- Rust `str::starts_with` on characters. -/
def str_starts_with (s pre : String) : Bool := pre.data.isPrefixOf s.data

/-- Rust `str::ends_with` on characters. -/
def str_ends_with (s suf : String) : Bool := suf.data.reverse.isPrefixOf s.data.reverse

/-- `HashSet::insert` on the watched set, modelled as a duplicate-free list. -/
def insertName (l : List String) (s : String) : List String :=
  if l.contains s then l else s :: l

/-- Outcome of `OpenOptions::open` on a directory entry. -/
inductive OpenRes where
  | ok (fd : Int)
  | permDenied
  | otherErr
  deriving DecidableEq, Repr

/-- Externally visible steps of one directory scan, in program order. -/
inductive RigAction where
  | skipNotVideo (name : String)
  | skipConnected (name : String)
  | openOk (name : String) (fd : Int)
  | openPermDenied (name : String)
  | openOther (name : String)
  | inserted (name : String)
  | initFail
  | initFatal
  | initOk
  | wakerRegistered
  deriving DecidableEq, Repr

/-- Result of one directory scan: a new camera, `Pending` (waker registered),
or an abort caused by a `panic!` inside `Camera::new`. -/
inductive ScanOut where
  | found (c : Camera)
  | pending
  | fatal
  deriving DecidableEq, Repr

/-- Bool discriminator for `ScanOut.found`. -/
def ScanOut.isFound : ScanOut → Bool
  | .found _ => true
  | _ => false

/-- Full result of a directory scan. -/
structure ScanResult where
  out : ScanOut
  connected : List String
  allOpen : Bool
  calls : Nat
  trace : List RigAction
  deriving Repr

/-- The `'fds` loop of `<Rig as Future>::poll` (src/lib.rs lines 367-404)
over the directory listing `entries`.  `openDev` gives each entry's open
outcome, `camEnv k` the syscall outcomes of the `k`-th `Camera::new`
invocation of this scan, `connected` the watched set and `allOpen` the
`all_open` flag on entry. -/
def rigScan (openDev : String → OpenRes) (camEnv : Nat → CamEnv) (k : Nat)
    (connected : List String) (allOpen : Bool) :
    List String → ScanResult
  | [] =>
    { out := .pending, connected := connected, allOpen := allOpen, calls := k,
      trace := [.wakerRegistered] }
  | file :: rest =>
    if ¬str_starts_with file "video" then
      let r := rigScan openDev camEnv k connected allOpen rest
      { r with trace := .skipNotVideo file :: r.trace }
    else if connected.contains file then
      let r := rigScan openDev camEnv k connected allOpen rest
      { r with trace := .skipConnected file :: r.trace }
    else
      match openDev file with
      | .permDenied =>
        let r := rigScan openDev camEnv k connected false rest
        { r with trace := .openPermDenied file :: r.trace }
      | .otherErr =>
        let r := rigScan openDev camEnv k connected allOpen rest
        { r with trace := .openOther file :: r.trace }
      | .ok fd =>
        let connected2 := insertName connected file
        match (cameraNew (camEnv k) fd).res with
        | .ok cam =>
          { out := .found cam, connected := connected2, allOpen := allOpen,
            calls := k + 1, trace := [.openOk file fd, .inserted file, .initOk] }
        | .fatal =>
          { out := .fatal, connected := connected2, allOpen := allOpen,
            calls := k + 1, trace := [.openOk file fd, .inserted file, .initFatal] }
        | .fail =>
          let r := rigScan openDev camEnv (k + 1) connected2 allOpen rest
          { r with
            trace := .openOk file fd :: .inserted file :: .initFail :: r.trace }

/-- The removal branch of `<Rig as Future>::poll` (src/lib.rs lines 409-419):
an inotify record with the delete bit `0x200` set removes its name from the
watched set only when the name ends with `"-event-joystick"`. -/
def rigProcessEvent (connected : List String) (mask : Nat) (name : String) :
    List String :=
  if mask &&& 0x200 ≠ 0 then
    if str_ends_with name "-event-joystick" then connected.erase name
    else connected
  else connected

/-- Modelled from the spec: the reactor slot of the external scheduler
(`smelling_salts`, outside this repository).  Spec sections 5 and 9: a
suspension "registers exactly one wake token" and "a second suspension before
a wake must not silently double-register" — so registering replaces the slot
content.  Applying a trace's registrations with token `w` to slot `r`. -/
def reactorApply (r : Option Nat) (tr : List CamAction) (w : Nat) : Option Nat :=
  tr.foldl (fun acc a => if a.isRegister then some w else acc) r

/-- Number of outstanding registrations in a reactor slot. -/
def outstanding (r : Option Nat) : Nat := if r.isSome then 1 else 0

/-! ### Equation lemmas for `cameraPoll` -/

theorem cameraPoll_ok_true (c : Camera) (idx : Nat) :
    cameraPoll (.ok idx) true c
      = ⟨.ready, { c with buf := { c.buf with index := idx } },
         [.dqbufOk c.fd idx, .qbuf c.fd idx]⟩ := rfl

theorem cameraPoll_ok_false (c : Camera) (idx : Nat) :
    cameraPoll (.ok idx) false c
      = ⟨.fatal, { c with buf := { c.buf with index := idx } },
         [.dqbufOk c.fd idx, .qbufErr c.fd idx]⟩ := rfl

theorem cameraPoll_eagain (c : Camera) (q : Bool) :
    cameraPoll (.err 11) q c
      = ⟨.pending, c, [.dqbufErr c.fd 11, .registerWaker c.fd c.watcherInput]⟩ := by
  simp [cameraPoll]

theorem cameraPoll_err_other (c : Camera) (q : Bool) (e : Int) (he : e ≠ 11) :
    cameraPoll (.err e) q c
      = ⟨.fatal, { c with fdOpen := false }, [.dqbufErr c.fd e, .closeFd c.fd]⟩ := by
  simp [cameraPoll, he]

/-- **C6** — when the dequeue fails with `EAGAIN` (errno 11) the poll
registers exactly one wake token (with the device's readability watcher) and
returns `Pending`, leaving the camera state — fd, open flag, streaming flag,
buffer descriptor — unchanged; and since registering replaces the reactor
slot, a second suspension before the wake leaves a single outstanding
registration, not two. -/
theorem eagain_single_registration (c : Camera) (q : Bool) (r : Option Nat)
    (w1 w2 : Nat) (hw : c.watcherInput = true) :
    (cameraPoll (.err 11) q c).res = .pending
    ∧ (cameraPoll (.err 11) q c).cam = c
    ∧ (cameraPoll (.err 11) q c).trace
        = [.dqbufErr c.fd 11, .registerWaker c.fd true]
    ∧ ((cameraPoll (.err 11) q c).trace.countP fun a => a.isRegister) = 1
    ∧ outstanding (reactorApply (reactorApply r (cameraPoll (.err 11) q c).trace w1)
        (cameraPoll (.err 11) q c).trace w2) = 1 := by
  rw [cameraPoll_eagain, hw]
  refine ⟨rfl, rfl, rfl, by simp [CamAction.isRegister], ?_⟩
  simp [reactorApply, outstanding, CamAction.isRegister]

/-- A camera on which the witnesses operate. -/
def camW : Camera :=
  { fd := 7, watcherInput := true, fdOpen := true, streaming := true,
    buffer := 0, buf := { index := 0, length := 1000, offset := 4096 },
    dataPtr := 0, size := 1000 }

/-- Witness for `eagain_single_registration` on `camW`. -/
theorem eagain_single_registration_witness :
    (cameraPoll (.err 11) true camW).res = .pending
    ∧ (cameraPoll (.err 11) true camW).cam = camW
    ∧ (cameraPoll (.err 11) true camW).trace
        = [.dqbufErr camW.fd 11, .registerWaker camW.fd true]
    ∧ ((cameraPoll (.err 11) true camW).trace.countP fun a => a.isRegister) = 1
    ∧ outstanding (reactorApply (reactorApply none (cameraPoll (.err 11) true camW).trace 5)
        (cameraPoll (.err 11) true camW).trace 6) = 1 :=
  eagain_single_registration camW true none 5 6 rfl

theorem cameraDrop_ok_trace (c : Camera) :
    (cameraDrop true true true c).trace
      = [.streamoff c.fd, .munmapCall c.buffer c.size, .closeFd c.fd] := rfl

/-- **C8** — *Resource release*: tearing down a camera performs, in order,
STREAMOFF, `munmap` of the recorded pointer with length equal to the recorded
buffer size, and a single `close` of the device fd — exactly one close action
— after which the camera's fd is marked unusable and streaming is off. -/
theorem teardown_order_single_close (c : Camera) :
    (cameraDrop true true true c).trace
      = [.streamoff c.fd, .munmapCall c.buffer c.size, .closeFd c.fd]
    ∧ ((cameraDrop true true true c).trace.countP fun a => a.isClose) = 1
    ∧ (cameraDrop true true true c).cam.fdOpen = false
    ∧ (cameraDrop true true true c).cam.streaming = false := by
  refine ⟨cameraDrop_ok_trace c, ?_, rfl, rfl⟩
  simp [cameraDrop, CamAction.isClose]

/-- A fully successful syscall environment for `Camera::new`: the internal
open of `/dev/video0` yields fd 7, every ioctl succeeds, and QUERYBUF reports
length 614400 at mapping offset 4096. -/
def envOkC : CamEnv :=
  { openVideo0 := some 7, querycapOk := true, sfmtOk := true, reqbufsOk := true,
    querybufOk := true, bufLength := 614400, bufOffset := 4096,
    qbufOk := true, streamonOk := true }

/-- **C3** — the initialization of the source never performs the mapping step:
on a fully successful run (buffer query reporting length 614400, offset 4096)
the action trace contains zero `mmap` calls although the buffer is enqueued,
and the returned `Camera` holds a null `buffer` pointer instead of a mapped
region of the reported length (the mapping call is commented out at
src/lib.rs lines 544-545). -/
theorem mapping_never_performed :
    ((cameraNew envOkC 3).trace.countP fun a => a.isMmap) = 0
    ∧ ((cameraNew envOkC 3).trace.countP fun a => a.isQbuf) = 1
    ∧ (cameraNew envOkC 3).res = .ok
        { fd := 7, watcherInput := true, fdOpen := true, streaming := true,
          buffer := 0, buf := { index := 0, length := 614400, offset := 4096 },
          dataPtr := 0, size := 614400 } := by
  refine ⟨?_, ?_, rfl⟩ <;> decide

/-- **C4** — the initialization of the source ignores the caller-supplied fd:
called with fd 5 while the internal re-open of `"/dev/video0"` yields fd 7,
every protocol call of the sequence is issued on fd 7 and none on fd 5, and
the resulting device holds fd 7. -/
theorem init_ignores_caller_fd :
    (cameraNew envOkC 5).trace
      = [.openVideo0 7, .querycap 7, .sfmt 7, .reqbufs 7, .querybuf 7,
         .qbuf 7 0, .streamon 7]
    ∧ ((cameraNew envOkC 5).trace.all fun a => a.fdUsed == some 7) = true
    ∧ ((cameraNew envOkC 5).trace.all fun a => a.fdUsed != some 5) = true := by
  refine ⟨rfl, ?_, ?_⟩ <;> decide

/-- **C5** — the removal branch does not key on the `"video"` discovery
filter: a delete record (mask `0x200`) named `"video0"` — which matches the
video-device naming filter — leaves the Watched Set unchanged, as does one
named `"video0-event-joystick"`; only a name ending in `"-event-joystick"`
and literally present in the set is removed. -/
theorem removal_filter_wrong_suffix :
    rigProcessEvent ["video0"] 0x200 "video0" = ["video0"]
    ∧ rigProcessEvent ["video0"] 0x200 "video0-event-joystick" = ["video0"]
    ∧ rigProcessEvent ["pad-event-joystick"] 0x200 "pad-event-joystick" = [] := by
  refine ⟨?_, ?_, ?_⟩ <;> decide

/-! ### The mapped-buffer pointer is never assigned -/

theorem cameraNew_ok_buffer {env : CamEnv} {f : Int} {c : Camera}
    {tr : List CamAction} (h : cameraNew env f = ⟨.ok c, tr⟩) : c.buffer = 0 := by
  unfold cameraNew at h
  rcases henv : env.openVideo0 with _ | fd <;> rw [henv] at h
  · simp at h
  · repeat' split at h
    all_goals simp only [InitStep.mk.injEq] at h
    all_goals obtain ⟨h1, h2⟩ := h
    any_goals exact InitRes.noConfusion h1
    rw [InitRes.ok.injEq] at h1
    rw [← h1]

theorem cameraPoll_buffer (dq : DqOutcome) (q : Bool) (c : Camera) :
    (cameraPoll dq q c).cam.buffer = c.buffer := by
  rcases dq with idx | e
  · rcases q with _ | _
    · rw [cameraPoll_ok_false]
    · rw [cameraPoll_ok_true]
  · by_cases he : e = 11
    · subst he; rw [cameraPoll_eagain]
    · rw [cameraPoll_err_other c q e he]

theorem pollRunState_buffer (outs : List (DqOutcome × Bool)) (c : Camera) :
    (pollRunState c outs).buffer = c.buffer := by
  induction outs generalizing c with
  | nil => rfl
  | cons p rest ih =>
    obtain ⟨dq, q⟩ := p
    rw [pollRunState]
    rcases hres : (cameraPoll dq q c).res with _ | _ | _ <;> simp only [hres]
    · rw [ih, cameraPoll_buffer]
    · rw [ih, cameraPoll_buffer]
    · rw [cameraPoll_buffer]

/-- **C10** — for every camera produced by `Camera::new`, the mapped-buffer
pointer is null (`0`) at construction, stays null across any sequence of
polls, and the teardown therefore calls `munmap` on the null address together
with the buffer length reported by the buffer query, never on a mapped
region's address. -/
theorem buffer_pointer_stays_null (env : CamEnv) (fdArg : Int) (c : Camera)
    (tr : List CamAction) (outs : List (DqOutcome × Bool))
    (h : cameraNew env fdArg = ⟨.ok c, tr⟩) :
    c.buffer = 0
    ∧ (pollRunState c outs).buffer = 0
    ∧ (cameraDrop true true true (pollRunState c outs)).trace
        = [.streamoff (pollRunState c outs).fd,
           .munmapCall 0 (pollRunState c outs).size,
           .closeFd (pollRunState c outs).fd] := by
  have h0 : c.buffer = 0 := cameraNew_ok_buffer h
  have h1 : (pollRunState c outs).buffer = 0 := by rw [pollRunState_buffer, h0]
  refine ⟨h0, h1, ?_⟩
  rw [cameraDrop_ok_trace (pollRunState c outs), h1]

/-- Witness for `buffer_pointer_stays_null`: the camera built by the
all-successful environment, polled once through an `EAGAIN` and once through
a completed frame. -/
theorem buffer_pointer_stays_null_witness :
    (pollRunState
        { fd := 7, watcherInput := true, fdOpen := true, streaming := true,
          buffer := 0, buf := { index := 0, length := 614400, offset := 4096 },
          dataPtr := 0, size := 614400 }
        [(.err 11, true), (.ok 0, true)]).buffer = 0 := by
  exact (buffer_pointer_stays_null envOkC 3 _ _ [(.err 11, true), (.ok 0, true)] rfl).2.1

/-! ### Pipeline-always-full: the enqueue/dequeue alternation of poll runs -/

theorem pollRun_cons_ready (c : Camera) (idx : Nat) (rest : List (DqOutcome × Bool)) :
    pollRun c ((.ok idx, true) :: rest)
      = [.dqbufOk c.fd idx, .qbuf c.fd idx]
        ++ pollRun { c with buf := { c.buf with index := idx } } rest := rfl

theorem pollRun_cons_qbuf_fatal (c : Camera) (idx : Nat) (rest : List (DqOutcome × Bool)) :
    pollRun c ((.ok idx, false) :: rest)
      = [.dqbufOk c.fd idx, .qbufErr c.fd idx] := rfl

theorem pollRun_cons_eagain (c : Camera) (q : Bool) (rest : List (DqOutcome × Bool)) :
    pollRun c ((.err 11, q) :: rest)
      = [.dqbufErr c.fd 11, .registerWaker c.fd c.watcherInput] ++ pollRun c rest := rfl

theorem pollRun_cons_err (c : Camera) (q : Bool) (e : Int) (he : e ≠ 11)
    (rest : List (DqOutcome × Bool)) :
    pollRun c ((.err e, q) :: rest) = [.dqbufErr c.fd e, .closeFd c.fd] := by
  rw [pollRun, cameraPoll_err_other c q e he]

theorem pollRun_counts (outs : List (DqOutcome × Bool)) (c : Camera) (n : Nat) :
    enqCount ((pollRun c outs).take n) ≤ deqCount ((pollRun c outs).take n)
    ∧ deqCount ((pollRun c outs).take n) ≤ enqCount ((pollRun c outs).take n) + 1 := by
  induction outs generalizing c n with
  | nil => simp [pollRun, enqCount, deqCount]
  | cons p rest ih =>
    obtain ⟨dq, q⟩ := p
    rcases dq with idx | e
    · rcases q with _ | _
      · rw [pollRun_cons_qbuf_fatal]
        match n with
        | 0 => simp [enqCount, deqCount]
        | 1 => simp [enqCount, deqCount, CamAction.isQbuf, CamAction.isDqbuf]
        | Nat.succ (Nat.succ m) =>
          simp [enqCount, deqCount, CamAction.isQbuf, CamAction.isDqbuf]
      · rw [pollRun_cons_ready]
        match n with
        | 0 => simp [enqCount, deqCount]
        | 1 => simp [enqCount, deqCount, CamAction.isQbuf, CamAction.isDqbuf]
        | Nat.succ (Nat.succ m) =>
          have h := ih { c with buf := { c.buf with index := idx } } m
          simp only [List.cons_append, List.nil_append, List.take_succ_cons,
            enqCount, deqCount, List.countP_cons] at h ⊢
          simp only [CamAction.isQbuf, CamAction.isDqbuf] at h ⊢
          omega
    · by_cases he : e = 11
      · subst he
        rw [pollRun_cons_eagain]
        match n with
        | 0 => simp [enqCount, deqCount]
        | 1 => simp [enqCount, deqCount, CamAction.isQbuf, CamAction.isDqbuf]
        | Nat.succ (Nat.succ m) =>
          have h := ih c m
          simp only [List.cons_append, List.nil_append, List.take_succ_cons,
            enqCount, deqCount, List.countP_cons] at h ⊢
          simp only [CamAction.isQbuf, CamAction.isDqbuf] at h ⊢
          omega
      · rw [pollRun_cons_err c q e he]
        match n with
        | 0 => simp [enqCount, deqCount]
        | 1 => simp [enqCount, deqCount, CamAction.isQbuf, CamAction.isDqbuf]
        | Nat.succ (Nat.succ m) =>
          simp [enqCount, deqCount, CamAction.isQbuf, CamAction.isDqbuf]

/-- **C1** — *Pipeline-always-full*: a poll that signals a completed frame
dequeued some index and re-enqueued exactly that index, exactly once, within
the same poll (before `Ready` is returned); and over any run of polls every
prefix of the action trace has at most as many enqueues as successful
dequeues and at most one dequeue not yet matched by a re-enqueue — so no
index is enqueued twice without an intervening dequeue and the single slot is
refilled before each completion signal. -/
theorem pipeline_always_full (c : Camera) (dq : DqOutcome) (q : Bool)
    (outs : List (DqOutcome × Bool)) (n : Nat) :
    ((cameraPoll dq q c).res = .ready →
      ∃ i, (cameraPoll dq q c).trace = [.dqbufOk c.fd i, .qbuf c.fd i]
        ∧ enqCount (cameraPoll dq q c).trace = 1
        ∧ deqCount (cameraPoll dq q c).trace = 1)
    ∧ enqCount ((pollRun c outs).take n) ≤ deqCount ((pollRun c outs).take n)
    ∧ deqCount ((pollRun c outs).take n) ≤ enqCount ((pollRun c outs).take n) + 1 := by
  refine ⟨?_, pollRun_counts outs c n⟩
  intro hready
  rcases dq with idx | e
  · rcases q with _ | _
    · rw [cameraPoll_ok_false] at hready
      exact absurd hready (by simp)
    · refine ⟨idx, ?_, ?_, ?_⟩ <;>
        simp [cameraPoll_ok_true, enqCount, deqCount, CamAction.isQbuf, CamAction.isDqbuf]
  · by_cases he : e = 11
    · subst he
      rw [cameraPoll_eagain] at hready
      exact absurd hready (by simp)
    · rw [cameraPoll_err_other c q e he] at hready
      exact absurd hready (by simp)

/-- Witness for `pipeline_always_full`: a ready poll on `camW`, with a
two-poll run. -/
theorem pipeline_always_full_witness :
    ∃ i, (cameraPoll (.ok 0) true camW).trace = [.dqbufOk camW.fd i, .qbuf camW.fd i]
      ∧ enqCount (cameraPoll (.ok 0) true camW).trace = 1
      ∧ deqCount (cameraPoll (.ok 0) true camW).trace = 1 :=
  (pipeline_always_full camW (.ok 0) true [(.err 11, true), (.ok 0, true)] 3).1 rfl

/-! ### Watched-set lemmas for the directory scan -/

theorem insertName_contains_self (l : List String) (s : String) :
    (insertName l s).contains s = true := by
  unfold insertName
  split
  · assumption
  · simp

theorem insertName_contains_mono {l : List String} {x : String} (s : String)
    (h : l.contains x = true) : (insertName l s).contains x = true := by
  unfold insertName
  split
  · exact h
  · have hx : x ∈ l := by simpa using h
    simp [hx]

/-- **C7** — *Idempotent discovery*: when every `"video"`-named entry of the
directory listing is already in the Watched Set, the scan yields no new
device (it returns `Pending`), does not mutate the Watched Set, and leaves
the `all_open` flag untouched — so a second scan with no intervening removal
is a no-op, preserving the set/open correspondence. -/
theorem idempotent_discovery (openDev : String → OpenRes) (camEnv : Nat → CamEnv)
    (k : Nat) (connected : List String) (allOpen : Bool) (entries : List String)
    (h : ∀ e ∈ entries, str_starts_with e "video" = true → connected.contains e = true) :
    (rigScan openDev camEnv k connected allOpen entries).out = .pending
    ∧ (rigScan openDev camEnv k connected allOpen entries).connected = connected
    ∧ (rigScan openDev camEnv k connected allOpen entries).allOpen = allOpen := by
  induction entries with
  | nil => exact ⟨rfl, rfl, rfl⟩
  | cons file rest ih =>
    have hrest : ∀ e ∈ rest, str_starts_with e "video" = true → connected.contains e = true :=
      fun e he => h e (List.mem_cons_of_mem _ he)
    by_cases hs : str_starts_with file "video" = true
    · have hc : connected.contains file = true := h file (List.mem_cons_self _ _) hs
      rw [rigScan, if_neg (by simp [hs]), if_pos hc]
      exact ih hrest
    · rw [rigScan, if_pos (by simpa using hs)]
      exact ih hrest

/-- Witness for `idempotent_discovery`: a two-entry directory whose only
video entry is already watched. -/
theorem idempotent_discovery_witness :
    (rigScan (fun _ => OpenRes.otherErr) (fun _ => envOkC) 0 ["video1"] true
        ["video1", "usb0"]).out = .pending
    ∧ (rigScan (fun _ => OpenRes.otherErr) (fun _ => envOkC) 0 ["video1"] true
        ["video1", "usb0"]).connected = ["video1"] :=
  ⟨(idempotent_discovery _ _ 0 ["video1"] true ["video1", "usb0"] (by decide)).1,
   (idempotent_discovery _ _ 0 ["video1"] true ["video1", "usb0"] (by decide)).2.1⟩

/-! ### Branch equations for `rigScan` -/

theorem rigScan_cons_notvideo (openDev : String → OpenRes) (camEnv : Nat → CamEnv)
    (k : Nat) (connected : List String) (allOpen : Bool) (file : String)
    (rest : List String) (hs : ¬ str_starts_with file "video" = true) :
    rigScan openDev camEnv k connected allOpen (file :: rest)
      = { rigScan openDev camEnv k connected allOpen rest with
          trace := .skipNotVideo file
            :: (rigScan openDev camEnv k connected allOpen rest).trace } := by
  rw [rigScan, if_pos hs]

theorem rigScan_cons_already (openDev : String → OpenRes) (camEnv : Nat → CamEnv)
    (k : Nat) (connected : List String) (allOpen : Bool) (file : String)
    (rest : List String) (hs : str_starts_with file "video" = true)
    (hc : connected.contains file = true) :
    rigScan openDev camEnv k connected allOpen (file :: rest)
      = { rigScan openDev camEnv k connected allOpen rest with
          trace := .skipConnected file
            :: (rigScan openDev camEnv k connected allOpen rest).trace } := by
  rw [rigScan, if_neg (by simp [hs]), if_pos hc]

theorem rigScan_cons_permDenied (openDev : String → OpenRes) (camEnv : Nat → CamEnv)
    (k : Nat) (connected : List String) (allOpen : Bool) (file : String)
    (rest : List String) (hs : str_starts_with file "video" = true)
    (hc : ¬ connected.contains file = true) (ho : openDev file = .permDenied) :
    rigScan openDev camEnv k connected allOpen (file :: rest)
      = { rigScan openDev camEnv k connected false rest with
          trace := .openPermDenied file
            :: (rigScan openDev camEnv k connected false rest).trace } := by
  rw [rigScan, if_neg (by simp [hs]), if_neg hc, ho]

theorem rigScan_cons_otherErr (openDev : String → OpenRes) (camEnv : Nat → CamEnv)
    (k : Nat) (connected : List String) (allOpen : Bool) (file : String)
    (rest : List String) (hs : str_starts_with file "video" = true)
    (hc : ¬ connected.contains file = true) (ho : openDev file = .otherErr) :
    rigScan openDev camEnv k connected allOpen (file :: rest)
      = { rigScan openDev camEnv k connected allOpen rest with
          trace := .openOther file
            :: (rigScan openDev camEnv k connected allOpen rest).trace } := by
  rw [rigScan, if_neg (by simp [hs]), if_neg hc, ho]

theorem rigScan_cons_open_fail (openDev : String → OpenRes) (camEnv : Nat → CamEnv)
    (k : Nat) (connected : List String) (allOpen : Bool) (file : String)
    (rest : List String) (fd : Int) (hs : str_starts_with file "video" = true)
    (hc : ¬ connected.contains file = true) (ho : openDev file = .ok fd)
    (hres : (cameraNew (camEnv k) fd).res = .fail) :
    rigScan openDev camEnv k connected allOpen (file :: rest)
      = { rigScan openDev camEnv (k + 1) (insertName connected file) allOpen rest with
          trace := .openOk file fd :: .inserted file :: .initFail
            :: (rigScan openDev camEnv (k + 1) (insertName connected file) allOpen rest).trace } := by
  rw [rigScan, if_neg (by simp [hs]), if_neg hc, ho]
  split
  · rename_i h
    cases h
  · rename_i h
    cases h
  · rename_i fd2 h
    injection h with h
    subst h
    split
    · rename_i h2
      rw [hres] at h2
      cases h2
    · rename_i h2
      rw [hres] at h2
      cases h2
    · rfl

theorem rigScan_cons_open_fatal (openDev : String → OpenRes) (camEnv : Nat → CamEnv)
    (k : Nat) (connected : List String) (allOpen : Bool) (file : String)
    (rest : List String) (fd : Int) (hs : str_starts_with file "video" = true)
    (hc : ¬ connected.contains file = true) (ho : openDev file = .ok fd)
    (hres : (cameraNew (camEnv k) fd).res = .fatal) :
    rigScan openDev camEnv k connected allOpen (file :: rest)
      = { out := .fatal, connected := insertName connected file, allOpen := allOpen,
          calls := k + 1,
          trace := [.openOk file fd, .inserted file, .initFatal] } := by
  rw [rigScan, if_neg (by simp [hs]), if_neg hc, ho]
  split
  · rename_i h
    cases h
  · rename_i h
    cases h
  · rename_i fd2 h
    injection h with h
    subst h
    split
    · rename_i h2
      rw [hres] at h2
      cases h2
    · rfl
    · rename_i h2
      rw [hres] at h2
      cases h2

theorem rigScan_cons_open_found (openDev : String → OpenRes) (camEnv : Nat → CamEnv)
    (k : Nat) (connected : List String) (allOpen : Bool) (file : String)
    (rest : List String) (fd : Int) (cam : Camera)
    (hs : str_starts_with file "video" = true)
    (hc : ¬ connected.contains file = true) (ho : openDev file = .ok fd)
    (hres : (cameraNew (camEnv k) fd).res = .ok cam) :
    rigScan openDev camEnv k connected allOpen (file :: rest)
      = { out := .found cam, connected := insertName connected file, allOpen := allOpen,
          calls := k + 1,
          trace := [.openOk file fd, .inserted file, .initOk] } := by
  rw [rigScan, if_neg (by simp [hs]), if_neg hc, ho]
  split
  · rename_i h
    cases h
  · rename_i h
    cases h
  · rename_i fd2 h
    injection h with h
    subst h
    split
    · rename_i cam2 h2
      rw [hres] at h2
      injection h2 with h2
      subst h2
      rfl
    · rename_i h2
      rw [hres] at h2
      cases h2
    · rename_i h2
      rw [hres] at h2
      cases h2

theorem rigScan_contains_mono (openDev : String → OpenRes) (camEnv : Nat → CamEnv)
    (entries : List String) (k : Nat) (connected : List String) (allOpen : Bool)
    {x : String} (h : connected.contains x = true) :
    (rigScan openDev camEnv k connected allOpen entries).connected.contains x = true := by
  induction entries generalizing k connected allOpen with
  | nil => exact h
  | cons file rest ih =>
    by_cases hs : str_starts_with file "video" = true
    · by_cases hc : connected.contains file = true
      · rw [rigScan_cons_already openDev camEnv k connected allOpen file rest hs hc]
        exact ih k connected allOpen h
      · rcases ho : openDev file with fd | _ | _
        · rcases hres : (cameraNew (camEnv k) fd).res with _ | _ | cam
          · rw [rigScan_cons_open_fail openDev camEnv k connected allOpen file rest fd hs hc ho hres]
            exact ih (k + 1) (insertName connected file) allOpen
              (insertName_contains_mono file h)
          · rw [rigScan_cons_open_fatal openDev camEnv k connected allOpen file rest fd hs hc ho hres]
            exact insertName_contains_mono file h
          · rw [rigScan_cons_open_found openDev camEnv k connected allOpen file rest fd cam hs hc ho hres]
            exact insertName_contains_mono file h
        · rw [rigScan_cons_permDenied openDev camEnv k connected allOpen file rest hs hc ho]
          exact ih k connected false h
        · rw [rigScan_cons_otherErr openDev camEnv k connected allOpen file rest hs hc ho]
          exact ih k connected allOpen h
    · rw [rigScan_cons_notvideo openDev camEnv k connected allOpen file rest hs]
      exact ih k connected allOpen h

theorem rigScan_open_inserted (openDev : String → OpenRes) (camEnv : Nat → CamEnv)
    (entries : List String) (k : Nat) (connected : List String) (allOpen : Bool)
    (name : String) (fd : Int)
    (h : RigAction.openOk name fd ∈ (rigScan openDev camEnv k connected allOpen entries).trace) :
    (rigScan openDev camEnv k connected allOpen entries).connected.contains name = true := by
  induction entries generalizing k connected allOpen with
  | nil => simp [rigScan] at h
  | cons file rest ih =>
    by_cases hs : str_starts_with file "video" = true
    · by_cases hc : connected.contains file = true
      · rw [rigScan_cons_already openDev camEnv k connected allOpen file rest hs hc] at h ⊢
        simp only [List.mem_cons] at h
        rcases h with h | h
        · cases h
        · exact ih k connected allOpen h
      · rcases ho : openDev file with fd2 | _ | _
        · rcases hres : (cameraNew (camEnv k) fd2).res with _ | _ | cam
          · rw [rigScan_cons_open_fail openDev camEnv k connected allOpen file rest fd2 hs hc ho hres] at h ⊢
            simp only [List.mem_cons] at h
            rcases h with h | h | h | h
            · injection h with h1 h2
              subst h1
              exact rigScan_contains_mono openDev camEnv rest (k + 1) _ allOpen
                (insertName_contains_self connected name)
            · cases h
            · cases h
            · exact ih (k + 1) (insertName connected file) allOpen h
          · rw [rigScan_cons_open_fatal openDev camEnv k connected allOpen file rest fd2 hs hc ho hres] at h ⊢
            simp only [List.mem_cons] at h
            rcases h with h | h | h | h
            · injection h with h1 h2
              subst h1
              exact insertName_contains_self connected name
            · cases h
            · cases h
            · simp at h
          · rw [rigScan_cons_open_found openDev camEnv k connected allOpen file rest fd2 cam hs hc ho hres] at h ⊢
            simp only [List.mem_cons] at h
            rcases h with h | h | h | h
            · injection h with h1 h2
              subst h1
              exact insertName_contains_self connected name
            · cases h
            · cases h
            · simp at h
        · rw [rigScan_cons_permDenied openDev camEnv k connected allOpen file rest hs hc ho] at h ⊢
          simp only [List.mem_cons] at h
          rcases h with h | h
          · cases h
          · exact ih k connected false h
        · rw [rigScan_cons_otherErr openDev camEnv k connected allOpen file rest hs hc ho] at h ⊢
          simp only [List.mem_cons] at h
          rcases h with h | h
          · cases h
          · exact ih k connected allOpen h
    · rw [rigScan_cons_notvideo openDev camEnv k connected allOpen file rest hs] at h ⊢
      simp only [List.mem_cons] at h
      rcases h with h | h
      · cases h
      · exact ih k connected allOpen h

theorem rigScan_fatal_iff (openDev : String → OpenRes) (camEnv : Nat → CamEnv)
    (entries : List String) (k : Nat) (connected : List String) (allOpen : Bool) :
    ((rigScan openDev camEnv k connected allOpen entries).out = .fatal
      ↔ RigAction.initFatal ∈ (rigScan openDev camEnv k connected allOpen entries).trace) := by
  induction entries generalizing k connected allOpen with
  | nil => simp [rigScan]
  | cons file rest ih =>
    by_cases hs : str_starts_with file "video" = true
    · by_cases hc : connected.contains file = true
      · rw [rigScan_cons_already openDev camEnv k connected allOpen file rest hs hc]
        simpa using ih k connected allOpen
      · rcases ho : openDev file with fd2 | _ | _
        · rcases hres : (cameraNew (camEnv k) fd2).res with _ | _ | cam
          · rw [rigScan_cons_open_fail openDev camEnv k connected allOpen file rest fd2 hs hc ho hres]
            simpa using ih (k + 1) (insertName connected file) allOpen
          · rw [rigScan_cons_open_fatal openDev camEnv k connected allOpen file rest fd2 hs hc ho hres]
            simp
          · rw [rigScan_cons_open_found openDev camEnv k connected allOpen file rest fd2 cam hs hc ho hres]
            simp
        · rw [rigScan_cons_permDenied openDev camEnv k connected allOpen file rest hs hc ho]
          simpa using ih k connected false
        · rw [rigScan_cons_otherErr openDev camEnv k connected allOpen file rest hs hc ho]
          simpa using ih k connected allOpen
    · rw [rigScan_cons_notvideo openDev camEnv k connected allOpen file rest hs]
      simpa using ih k connected allOpen

theorem rigScan_fatal_last (openDev : String → OpenRes) (camEnv : Nat → CamEnv)
    (entries : List String) (k : Nat) (connected : List String) (allOpen : Bool)
    (h : RigAction.initFatal ∈ (rigScan openDev camEnv k connected allOpen entries).trace) :
    ∃ t, (rigScan openDev camEnv k connected allOpen entries).trace
      = t ++ [RigAction.initFatal] := by
  induction entries generalizing k connected allOpen with
  | nil => simp [rigScan] at h
  | cons file rest ih =>
    by_cases hs : str_starts_with file "video" = true
    · by_cases hc : connected.contains file = true
      · rw [rigScan_cons_already openDev camEnv k connected allOpen file rest hs hc] at h ⊢
        simp only [List.mem_cons] at h
        rcases h with h | h
        · cases h
        · obtain ⟨t, ht⟩ := ih k connected allOpen h
          exact ⟨.skipConnected file :: t, by simp [ht]⟩
      · rcases ho : openDev file with fd2 | _ | _
        · rcases hres : (cameraNew (camEnv k) fd2).res with _ | _ | cam
          · rw [rigScan_cons_open_fail openDev camEnv k connected allOpen file rest fd2 hs hc ho hres] at h ⊢
            simp only [List.mem_cons] at h
            rcases h with h | h | h | h
            · cases h
            · cases h
            · cases h
            · obtain ⟨t, ht⟩ := ih (k + 1) (insertName connected file) allOpen h
              exact ⟨.openOk file fd2 :: .inserted file :: .initFail :: t, by simp [ht]⟩
          · rw [rigScan_cons_open_fatal openDev camEnv k connected allOpen file rest fd2 hs hc ho hres]
            exact ⟨[.openOk file fd2, .inserted file], rfl⟩
          · rw [rigScan_cons_open_found openDev camEnv k connected allOpen file rest fd2 cam hs hc ho hres] at h
            simp at h
        · rw [rigScan_cons_permDenied openDev camEnv k connected allOpen file rest hs hc ho] at h ⊢
          simp only [List.mem_cons] at h
          rcases h with h | h
          · cases h
          · obtain ⟨t, ht⟩ := ih k connected false h
            exact ⟨.openPermDenied file :: t, by simp [ht]⟩
        · rw [rigScan_cons_otherErr openDev camEnv k connected allOpen file rest hs hc ho] at h ⊢
          simp only [List.mem_cons] at h
          rcases h with h | h
          · cases h
          · obtain ⟨t, ht⟩ := ih k connected allOpen h
            exact ⟨.openOther file :: t, by simp [ht]⟩
    · rw [rigScan_cons_notvideo openDev camEnv k connected allOpen file rest hs] at h ⊢
      simp only [List.mem_cons] at h
      rcases h with h | h
      · cases h
      · obtain ⟨t, ht⟩ := ih k connected allOpen h
        exact ⟨.skipNotVideo file :: t, by simp [ht]⟩

/-- **C9 (amended)** — during a directory scan, every successfully opened
entry has its name inserted into the Watched Set (and it is still there when
the scan returns); an initialization failure that panics on a protocol call
is fatal to the whole monitor — the scan result is `fatal` exactly when such
a panic occurred, and nothing is scanned after it (the panic is the last
action of the trace); but an initialization that merely returns `None`
because its internal device open failed is *not* fatal: the monitor keeps
scanning the remaining entries. -/
theorem open_insert_and_fatal_only_on_panic (openDev : String → OpenRes)
    (camEnv : Nat → CamEnv) (entries : List String) (k : Nat)
    (connected : List String) (allOpen : Bool) :
    (∀ name fd,
      RigAction.openOk name fd ∈ (rigScan openDev camEnv k connected allOpen entries).trace →
      (rigScan openDev camEnv k connected allOpen entries).connected.contains name = true)
    ∧ ((rigScan openDev camEnv k connected allOpen entries).out = .fatal
        ↔ RigAction.initFatal ∈ (rigScan openDev camEnv k connected allOpen entries).trace)
    ∧ (RigAction.initFatal ∈ (rigScan openDev camEnv k connected allOpen entries).trace →
        ∃ t, (rigScan openDev camEnv k connected allOpen entries).trace
          = t ++ [RigAction.initFatal]) :=
  ⟨fun name fd h => rigScan_open_inserted openDev camEnv entries k connected allOpen name fd h,
   rigScan_fatal_iff openDev camEnv entries k connected allOpen,
   fun h => rigScan_fatal_last openDev camEnv entries k connected allOpen h⟩

/-- A `Camera::new` environment whose internal open of `/dev/video0` fails,
so initialization returns `None` without panicking. -/
def envFailC : CamEnv :=
  { openVideo0 := none, querycapOk := true, sfmtOk := true, reqbufsOk := true,
    querybufOk := true, bufLength := 0, bufOffset := 0,
    qbufOk := true, streamonOk := true }

/-- Directory-open outcomes for the two-camera scenario: `video0` opens as
fd 10, `video1` as fd 11. -/
def openDevC9 : String → OpenRes :=
  fun s => if s = "video0" then .ok 10 else if s = "video1" then .ok 11 else .otherErr

/-- Per-invocation `Camera::new` outcomes for the two-camera scenario: the
first invocation fails at its internal open, the second fully succeeds. -/
def camEnvC9 : Nat → CamEnv := fun k => if k = 0 then envFailC else envOkC

/-- **C9 counterexample** — scanning `["video0", "video1"]` with an empty
Watched Set: `video0` opens, is inserted, and its initialization *fails*
(`Camera::new` returns `None`), yet the monitor continues and scans, opens
and initializes `video1`, yielding its camera — so an initialization failure
is not always fatal to the monitor, contrary to the claim. -/
theorem monitor_continues_after_init_failure :
    (rigScan openDevC9 camEnvC9 0 [] true ["video0", "video1"]).trace
      = [.openOk "video0" 10, .inserted "video0", .initFail,
         .openOk "video1" 11, .inserted "video1", .initOk]
    ∧ (rigScan openDevC9 camEnvC9 0 [] true ["video0", "video1"]).out.isFound = true
    ∧ (rigScan openDevC9 camEnvC9 0 [] true ["video0", "video1"]).connected
      = ["video1", "video0"] := by
  refine ⟨?_, ?_, ?_⟩ <;> decide

/-- Witness for `open_insert_and_fatal_only_on_panic`: in the two-camera
scenario, `video0` was opened, so it is in the final Watched Set. -/
theorem open_insert_and_fatal_only_on_panic_witness :
    (rigScan openDevC9 camEnvC9 0 [] true ["video0", "video1"]).connected.contains
      "video0" = true :=
  (open_insert_and_fatal_only_on_panic openDevC9 camEnvC9 ["video0", "video1"] 0 [] true).1
    "video0" 10 (by decide)
